import Mathlib

/-!
VaultDAO — verification of the TypeScript SDK, the frontend CSV export
utilities, and a model of the on-chain treasury-authorization engine.

The SDK definitions are shallow embeddings of src/sdk/src/types.ts,
src/sdk/src/utils.ts and the contract-binding module; the CSV definitions
embed src/frontend/src/utils/export.ts.  The authorization engine itself is
not present as literal source in the repository (it is an external Soroban
contract consumed through a documented surface), so it is modelled from the
specification text, as marked on each of its definitions.
-/

-- ---------------------------------------------------------------------------
-- Enums from src/sdk/src/types.ts
-- ---------------------------------------------------------------------------

/-- Permissions assigned to vault participants (enum Role in types.ts). -/
inductive Role where
  | Member
  | Treasurer
  | Admin
deriving DecidableEq, Repr

/-- Numeric encoding of the Role enum: Member = 0, Treasurer = 1, Admin = 2. -/
def roleValue : Role → Nat
  | .Member => 0
  | .Treasurer => 1
  | .Admin => 2

/-- Lifecycle states of a transfer proposal (enum ProposalStatus in types.ts). -/
inductive ProposalStatus where
  | Pending
  | Approved
  | Executed
  | Rejected
  | Expired
deriving DecidableEq, Repr

/-- Numeric encoding of the ProposalStatus enum. -/
def proposalStatusValue : ProposalStatus → Nat
  | .Pending => 0
  | .Approved => 1
  | .Executed => 2
  | .Rejected => 3
  | .Expired => 4

-- ---------------------------------------------------------------------------
-- VaultErrorCode (src/sdk/src/types.ts, lines 129-166)
-- ---------------------------------------------------------------------------

/-- The 1xx initialization members of the VaultErrorCode enum, as
(name, numeric value) pairs in source order. -/
def initializationErrors : List (String × Nat) :=
  [("AlreadyInitialized", 100), ("NotInitialized", 101)]

/-- The 2xx authorization members of the VaultErrorCode enum. -/
def authorizationErrors : List (String × Nat) :=
  [("Unauthorized", 200), ("NotASigner", 201), ("InsufficientRole", 202)]

/-- The 3xx proposal members of the VaultErrorCode enum. -/
def proposalErrors : List (String × Nat) :=
  [("ProposalNotFound", 300), ("ProposalNotPending", 301),
   ("AlreadyApproved", 302), ("ProposalExpired", 303),
   ("ProposalNotApproved", 304), ("ProposalAlreadyExecuted", 305)]

/-- The 4xx spending-limit members of the VaultErrorCode enum. -/
def spendingErrors : List (String × Nat) :=
  [("ExceedsProposalLimit", 400), ("ExceedsDailyLimit", 401),
   ("ExceedsWeeklyLimit", 402), ("InvalidAmount", 403),
   ("TimelockNotExpired", 404), ("IntervalTooShort", 405)]

/-- The 5xx configuration members of the VaultErrorCode enum. -/
def configurationErrors : List (String × Nat) :=
  [("ThresholdTooLow", 500), ("ThresholdTooHigh", 501),
   ("SignerAlreadyExists", 502), ("SignerNotFound", 503),
   ("CannotRemoveSigner", 504), ("NoSigners", 505)]

/-- The 6xx token members of the VaultErrorCode enum. -/
def tokenErrors : List (String × Nat) :=
  [("TransferFailed", 600), ("InsufficientBalance", 601)]

/-- All members of the VaultErrorCode enum, in source order. -/
def vaultErrorCodes : List (String × Nat) :=
  initializationErrors ++ authorizationErrors ++ proposalErrors ++
    spendingErrors ++ configurationErrors ++ tokenErrors

/-- Reverse mapping of the numeric enum: the name registered for a numeric
code, mirroring the TypeScript expression VaultErrorCode[code]. -/
def vaultErrorCodeName (code : Nat) : Option String :=
  (vaultErrorCodes.find? (fun p => p.2 == code)).map Prod.fst

/-- Membership test mirroring the TypeScript expression
(code in VaultErrorCode) on the numeric enum. -/
def isKnownVaultErrorCode (code : Nat) : Bool :=
  (vaultErrorCodeName code).isSome

-- ---------------------------------------------------------------------------
-- VaultError and parseError (src/sdk/src/types.ts 169-177, utils.ts 200-215)
-- ---------------------------------------------------------------------------

/-- JavaScript values as seen by parseError: an instance of the VaultError
class (code plus message), any other Error instance (its message), or a
non-Error value represented by its String(x) form. -/
inductive JsValue where
  | vaultError (code : Nat) (msg : String)
  | error (msg : String)
  | other (str : String)
deriving DecidableEq, Repr

/-- Default message built by the VaultError constructor when no explicit
message is passed; in types.ts the reverse enum lookup VaultErrorCode[code]
yields the name, or the string undefined for an unknown code. -/
def vaultErrorMessage (code : Nat) : String :=
  "VaultError(" ++ toString code ++ "): " ++
    ((vaultErrorCodeName code).getD "undefined")

/-- Construction new VaultError(code) with the default message. -/
def mkVaultError (code : Nat) : JsValue :=
  JsValue.vaultError code (vaultErrorMessage code)

/-- Literal head of the Soroban contract-error pattern. -/
def contractErrorLit : List Char := "Error(Contract,".data

/-- Strip a literal from the head of the input, returning the remainder
when the input starts with the literal. -/
def stripLit : (lit input : List Char) → Option (List Char)
  | [], cs => some cs
  | _ :: _, [] => none
  | l :: ls, c :: cs => if c = l then stripLit ls cs else none

/-- Attempt to match the regular expression Error[(]Contract,\s*(\d+)[)]
anchored at the head of the character list, returning the captured numeric
code.  \s is modelled by Char.isWhitespace and \d by Char.isDigit; the
greedy digit run must be followed by a closing parenthesis, exactly as the
regex requires. -/
def matchContractCodeAt (cs : List Char) : Option Nat :=
  match stripLit contractErrorLit cs with
  | none => none
  | some rest =>
    let afterWs := rest.dropWhile Char.isWhitespace
    let digits := afterWs.takeWhile Char.isDigit
    let tail := afterWs.dropWhile Char.isDigit
    if digits.isEmpty then none
    else
      match tail with
      | ')' :: _ => some (digits.foldl (fun n c => 10 * n + (c.toNat - 48)) 0)
      | _ => none

/-- First (leftmost) match of the contract-error regex in a message,
mirroring message.match(re) without the global flag. -/
def findContractCode : List Char → Option Nat
  | [] => none
  | c :: cs =>
    match matchContractCodeAt (c :: cs) with
    | some n => some n
    | none => findContractCode cs

/-- Embedding of parseError from src/sdk/src/utils.ts: a VaultError instance
is returned as-is; otherwise the message (or String(err) for a non-Error) is
scanned for the first contract-error pattern; a known code yields a fresh
VaultError; otherwise an Error input is returned unchanged and a non-Error
input is wrapped in new Error(message). -/
def parseError (err : JsValue) : JsValue :=
  match err with
  | .vaultError c m => .vaultError c m
  | .error m =>
    match findContractCode m.data with
    | some code => if isKnownVaultErrorCode code then mkVaultError code else .error m
    | none => .error m
  | .other s =>
    match findContractCode s.data with
    | some code => if isKnownVaultErrorCode code then mkVaultError code else .error s
    | none => .error s

-- ---------------------------------------------------------------------------
-- Network presets and buildOptions (src/sdk/src/utils.ts, lines 25-53)
-- ---------------------------------------------------------------------------

/-- Network presets other than custom (type Network in types.ts). -/
inductive PresetNetwork where
  | testnet
  | mainnet
  | futurenet
deriving DecidableEq, Repr

/-- Options passed to every SDK function (interface SdkOptions). -/
structure SdkOptions where
  contractId : String
  rpcUrl : String
  networkPassphrase : String
deriving DecidableEq, Repr

/-- Known network passphrases keyed by preset name; the three constants are
Networks.TESTNET, Networks.PUBLIC and Networks.FUTURENET of stellar-sdk. -/
def NETWORK_PASSPHRASES : PresetNetwork → String
  | .testnet => "Test SDF Network ; September 2015"
  | .mainnet => "Public Global Stellar Network ; September 2015"
  | .futurenet => "Test SDF Future Network ; October 2022"

/-- Default RPC endpoints for known networks. -/
def DEFAULT_RPC_URLS : PresetNetwork → String
  | .testnet => "https://soroban-testnet.stellar.org"
  | .mainnet => "https://mainnet.stellar.validationcloud.io/v1/REPLACE_ME"
  | .futurenet => "https://rpc-futurenet.stellar.org"

/-- Embedding of buildOptions from src/sdk/src/utils.ts. -/
def buildOptions (network : PresetNetwork) (contractId : String) : SdkOptions :=
  { contractId := contractId
    rpcUrl := DEFAULT_RPC_URLS network
    networkPassphrase := NETWORK_PASSPHRASES network }

example : buildOptions .testnet "CID" =
    ⟨"CID", "https://soroban-testnet.stellar.org",
      "Test SDF Network ; September 2015"⟩ := by decide

example : parseError (JsValue.error "Error(Contract, 100)") =
    JsValue.vaultError 100 "VaultError(100): AlreadyInitialized" := by decide

-- ---------------------------------------------------------------------------
-- Soroban ScVal values and the conversion helpers of src/sdk/src/utils.ts
-- ---------------------------------------------------------------------------

/-- Soroban ScVal values, restricted to the shapes the SDK bindings build. -/
inductive ScVal where
  | address (s : String)
  | i128 (n : Int)
  | u64 (n : Int)
  | u32 (n : Nat)
  | sym (s : String)
  | vec (xs : List ScVal)
  | scMap (entries : List (ScVal × ScVal))

/-- Conversion addressToScVal from utils.ts. -/
def addressToScVal (address : String) : ScVal := ScVal.address address

/-- Conversion i128ToScVal from utils.ts (JS bigint modelled as Int). -/
def i128ToScVal (value : Int) : ScVal := ScVal.i128 value

/-- Conversion u64ToScVal from utils.ts (JS bigint modelled as Int). -/
def u64ToScVal (value : Int) : ScVal := ScVal.u64 value

/-- Conversion u32ToScVal from utils.ts (JS number modelled as Nat). -/
def u32ToScVal (value : Nat) : ScVal := ScVal.u32 value

/-- Conversion symbolToScVal from utils.ts. -/
def symbolToScVal (value : String) : ScVal := ScVal.sym value

/-- Invocation of a contract function: the function name passed to
contract.call together with the ScVal argument list. -/
structure ContractCall where
  fn : String
  args : List ScVal

/-- Result of a mutating SDK binding: buildTransaction(source, op, opts)
prepares a transaction whose source account is the given public key and
whose single operation is the contract call. -/
structure PreparedTx where
  source : String
  call : ContractCall

-- ---------------------------------------------------------------------------
-- Contract bindings (SDK contract module), namespace SDK
-- ---------------------------------------------------------------------------

namespace SDK

/-- InitConfig from types.ts (bigint fields modelled as Int). -/
structure InitConfig where
  signers : List String
  threshold : Nat
  spendingLimit : Int
  dailyLimit : Int
  weeklyLimit : Int
  timelockThreshold : Int
  timelockDelay : Int
deriving DecidableEq, Repr

/-- Binding initialize of the contract module (spelled initializeVault here
because the source name is a reserved word in Lean): builds the scvMap for
the config and calls the contract function initialize with the admin
address and the config map. -/
def initializeVault (adminPublicKey : String) (config : InitConfig) : PreparedTx :=
  let signersScVal := ScVal.vec (config.signers.map (fun s => addressToScVal s))
  let configScVal := ScVal.scMap
    [(ScVal.sym "signers", signersScVal),
     (ScVal.sym "threshold", u32ToScVal config.threshold),
     (ScVal.sym "spending_limit", i128ToScVal config.spendingLimit),
     (ScVal.sym "daily_limit", i128ToScVal config.dailyLimit),
     (ScVal.sym "weekly_limit", i128ToScVal config.weeklyLimit),
     (ScVal.sym "timelock_threshold", i128ToScVal config.timelockThreshold),
     (ScVal.sym "timelock_delay", u64ToScVal config.timelockDelay)]
  { source := adminPublicKey
    call := { fn := "initialize"
              args := [addressToScVal adminPublicKey, configScVal] } }

/-- Binding proposeTransfer. -/
def proposeTransfer (proposerPublicKey recipient tokenAddress : String)
    (amount : Int) (memo : String) : PreparedTx :=
  { source := proposerPublicKey
    call := { fn := "propose_transfer"
              args := [addressToScVal proposerPublicKey,
                       addressToScVal recipient,
                       addressToScVal tokenAddress,
                       i128ToScVal amount,
                       symbolToScVal memo] } }

/-- Binding approveProposal. -/
def approveProposal (signerPublicKey : String) (proposalId : Int) : PreparedTx :=
  { source := signerPublicKey
    call := { fn := "approve_proposal"
              args := [addressToScVal signerPublicKey, u64ToScVal proposalId] } }

/-- Binding executeProposal. -/
def executeProposal (executorPublicKey : String) (proposalId : Int) : PreparedTx :=
  { source := executorPublicKey
    call := { fn := "execute_proposal"
              args := [addressToScVal executorPublicKey, u64ToScVal proposalId] } }

/-- Binding rejectProposal. -/
def rejectProposal (rejectorPublicKey : String) (proposalId : Int) : PreparedTx :=
  { source := rejectorPublicKey
    call := { fn := "reject_proposal"
              args := [addressToScVal rejectorPublicKey, u64ToScVal proposalId] } }

/-- Binding setRole. -/
def setRole (adminPublicKey targetAddress : String) (role : Role) : PreparedTx :=
  { source := adminPublicKey
    call := { fn := "set_role"
              args := [addressToScVal adminPublicKey,
                       addressToScVal targetAddress,
                       u32ToScVal (roleValue role)] } }

/-- Binding addSigner. -/
def addSigner (adminPublicKey newSignerAddress : String) : PreparedTx :=
  { source := adminPublicKey
    call := { fn := "add_signer"
              args := [addressToScVal adminPublicKey,
                       addressToScVal newSignerAddress] } }

/-- Binding removeSigner. -/
def removeSigner (adminPublicKey signerAddress : String) : PreparedTx :=
  { source := adminPublicKey
    call := { fn := "remove_signer"
              args := [addressToScVal adminPublicKey,
                       addressToScVal signerAddress] } }

/-- Binding updateLimits. -/
def updateLimits (adminPublicKey : String) (spendingLimit dailyLimit : Int) :
    PreparedTx :=
  { source := adminPublicKey
    call := { fn := "update_limits"
              args := [addressToScVal adminPublicKey,
                       i128ToScVal spendingLimit,
                       i128ToScVal dailyLimit] } }

/-- Binding updateThreshold. -/
def updateThreshold (adminPublicKey : String) (threshold : Nat) : PreparedTx :=
  { source := adminPublicKey
    call := { fn := "update_threshold"
              args := [addressToScVal adminPublicKey, u32ToScVal threshold] } }

/-- Binding schedulePayment. -/
def schedulePayment (proposerPublicKey recipient tokenAddress : String)
    (amount : Int) (memo : String) (intervalLedgers : Int) : PreparedTx :=
  { source := proposerPublicKey
    call := { fn := "schedule_payment"
              args := [addressToScVal proposerPublicKey,
                       addressToScVal recipient,
                       addressToScVal tokenAddress,
                       i128ToScVal amount,
                       symbolToScVal memo,
                       u64ToScVal intervalLedgers] } }

/-- Binding executeRecurringPayment: the caller public key is the
transaction source and the contract is called with the payment id. -/
def executeRecurringPayment (callerPublicKey : String) (paymentId : Int) :
    PreparedTx :=
  { source := callerPublicKey
    call := { fn := "execute_recurring_payment"
              args := [u64ToScVal paymentId] } }

/-- Read-only binding getProposal: the simulated contract call. -/
def getProposalCall (proposalId : Int) : ContractCall :=
  { fn := "get_proposal", args := [u64ToScVal proposalId] }

/-- Read-only binding getRole: the simulated contract call. -/
def getRoleCall (address : String) : ContractCall :=
  { fn := "get_role", args := [addressToScVal address] }

/-- Read-only binding getTodaySpent: the simulated contract call. -/
def getTodaySpentCall : ContractCall :=
  { fn := "get_today_spent", args := [] }

/-- Read-only binding isSigner: the simulated contract call. -/
def isSignerCall (address : String) : ContractCall :=
  { fn := "is_signer", args := [addressToScVal address] }

/-- Export names of the one-time initialization binding, as listed in the
contract-bindings block of src/sdk/src/index.ts. -/
def initExports : List String := ["initialize"]

/-- Export names of the mutating contract bindings (proposal lifecycle,
admin, recurring payments) from src/sdk/src/index.ts. -/
def mutatingExports : List String :=
  ["proposeTransfer", "approveProposal", "executeProposal", "rejectProposal",
   "setRole", "addSigner", "removeSigner", "updateLimits", "updateThreshold",
   "schedulePayment", "executeRecurringPayment"]

/-- Export names of the read-only contract bindings from index.ts. -/
def readOnlyExports : List String :=
  ["getProposal", "getRole", "getTodaySpent", "isSigner"]

/-- Contract function name each mutating export invokes, read off the
corresponding binding definition. -/
def exportContractFn : String → Option String
  | "initialize" => some "initialize"
  | "proposeTransfer" => some "propose_transfer"
  | "approveProposal" => some "approve_proposal"
  | "executeProposal" => some "execute_proposal"
  | "rejectProposal" => some "reject_proposal"
  | "setRole" => some "set_role"
  | "addSigner" => some "add_signer"
  | "removeSigner" => some "remove_signer"
  | "updateLimits" => some "update_limits"
  | "updateThreshold" => some "update_threshold"
  | "schedulePayment" => some "schedule_payment"
  | "executeRecurringPayment" => some "execute_recurring_payment"
  | "getProposal" => some "get_proposal"
  | "getRole" => some "get_role"
  | "getTodaySpent" => some "get_today_spent"
  | "isSigner" => some "is_signer"
  | _ => none

end SDK

-- ---------------------------------------------------------------------------
-- CSV export utilities (src/frontend/src/utils/export.ts)
-- ---------------------------------------------------------------------------

/-- Predicate of the regular expression ["[,\n\r]] used by escapeCsvCell:
true when the string form of a cell holds a double quote, comma, line feed
or carriage return. -/
def needsCsvQuote (s : String) : Bool :=
  s.data.any (fun c => c == '"' || c == ',' || c == '\n' || c == '\r')

/-- Replacement s.replace of quote by doubled quote, applied globally,
on the character list of the cell. -/
def doubleQuotes : List Char → List Char
  | [] => []
  | c :: cs => if c = '"' then '"' :: '"' :: doubleQuotes cs else c :: doubleQuotes cs

/-- Embedding of escapeCsvCell from export.ts: the cell value (undefined or
null collapse to the empty string via the ?? operator, other cells arrive
as their String(value) form) is quoted and quote-doubled exactly when it
holds a quote, comma, LF or CR. -/
def escapeCsvCell (value : Option String) : String :=
  let s := value.getD ""
  if needsCsvQuote s then String.mk ('"' :: (doubleQuotes s.data ++ ['"'])) else s

/-- Lookup row[k] on a JavaScript object modelled as an association list of
string-formed fields; a missing key is undefined. -/
def rowGet (row : List (String × String)) (k : String) : Option String :=
  row.lookup k

/-- Embedding of toCSV(rows, headers?) from export.ts: on an empty row list
the (optional) headers are emitted followed by CRLF; otherwise the key list
is headers ?? Object.keys(rows[0]) and each line joins escaped cells with
commas, the lines being joined with CRLF. -/
def toCSV (rows : List (List (String × String))) (headers : Option (List String)) :
    String :=
  match rows with
  | [] =>
    String.intercalate "," ((headers.getD []).map (fun h => escapeCsvCell (some h)))
      ++ "\r\n"
  | r0 :: _ =>
    let keys := headers.getD (r0.map Prod.fst)
    let headerLine := String.intercalate "," (keys.map (fun h => escapeCsvCell (some h)))
    let lines := headerLine ::
      rows.map (fun row =>
        String.intercalate "," (keys.map (fun k => escapeCsvCell (rowGet row k))))
    String.intercalate "\r\n" lines

/-- Embedding of toCsv(headers, rows) from export.ts (the ExportModal API):
a header row followed by one line per row, cells escaped and joined with
commas, lines joined with CRLF. -/
def toCsv (headers : List String) (rows : List (List (String × String))) : String :=
  let headerRow := String.intercalate "," (headers.map (fun h => escapeCsvCell (some h)))
  let dataRows := rows.map (fun row =>
    String.intercalate "," (headers.map (fun h => escapeCsvCell (rowGet row h))))
  String.intercalate "\r\n" (headerRow :: dataRows)

/-- Standard CSV undoubling of quotes inside a quoted cell: each pair of
double quotes collapses to one. -/
def undoubleQuotes : List Char → List Char
  | [] => []
  | [c] => [c]
  | c :: d :: cs =>
    if c = '"' ∧ d = '"' then '"' :: undoubleQuotes cs
    else c :: undoubleQuotes (d :: cs)

/-- Modelled from the spec: standard CSV unescaping of a single emitted
cell (RFC 4180 style), used to state the round-trip property toCSV and
toCsv are claimed to satisfy.  A cell that begins and ends with a double
quote is stripped of the wrapper and has interior doubled quotes collapsed;
any other cell is read verbatim. -/
def unescapeCsvCell (s : String) : String :=
  match s.data with
  | '"' :: rest =>
    if rest.getLast? = some '"' then String.mk (undoubleQuotes rest.dropLast) else s
  | _ => s

example : escapeCsvCell (some "a,b") = "\"a,b\"" := by decide

example : unescapeCsvCell (escapeCsvCell (some "say \"hi\", now")) =
    "say \"hi\", now" := by decide

example : toCsv ["a", "b"] [[("a", "1"), ("b", "x,y")]] =
    "a,b\r\n1,\"x,y\"" := by decide

-- ---------------------------------------------------------------------------
-- The authorization engine, modelled from the specification (namespace
-- Engine).  The contract source is not part of this repository.
-- ---------------------------------------------------------------------------

namespace Engine

/-- Modelled from the spec: VaultConfiguration of the data model, holding
the signer set, the M-of-N threshold, the spending limits and the timelock
parameters (section 3 of the specification). -/
structure VaultConfiguration where
  signers : List String
  threshold : Nat
  perProposalLimit : Int
  dailyLimit : Int
  weeklyLimit : Int
  timelockThreshold : Int
  timelockDelay : Nat
deriving DecidableEq, Repr

/-- Modelled from the spec: a transfer proposal record (section 3). -/
structure Proposal where
  id : Nat
  proposer : String
  recipient : String
  token : String
  amount : Int
  memo : String
  approvals : List String
  status : ProposalStatus
  createdAt : Nat
  expiresAt : Nat
  unlockLedger : Nat
deriving DecidableEq, Repr

/-- Modelled from the spec: a recurring payment record (section 3). -/
structure RecurringPayment where
  id : Nat
  proposer : String
  recipient : String
  token : String
  amount : Int
  memo : String
  interval : Nat
  nextDueAt : Nat
  executionCount : Nat
  active : Bool
deriving DecidableEq, Repr

/-- Modelled from the spec: the error codes of the engine, one for each
member of the documented error surface. -/
inductive EngineError where
  | AlreadyInitialized | NotInitialized
  | Unauthorized | NotASigner | InsufficientRole
  | ProposalNotFound | ProposalNotPending | AlreadyApproved
  | ProposalExpired | ProposalNotApproved | ProposalAlreadyExecuted
  | ExceedsProposalLimit | ExceedsDailyLimit | ExceedsWeeklyLimit
  | InvalidAmount | TimelockNotExpired | IntervalTooShort
  | ThresholdTooLow | ThresholdTooHigh | SignerAlreadyExists
  | SignerNotFound | CannotRemoveSigner | NoSigners
  | TransferFailed | InsufficientBalance
deriving DecidableEq, Repr

/-- Modelled from the spec: the full engine state — initialization flag,
configuration, role registry, proposal arena, recurring payments and the
per-period spending accumulators keyed by period index. -/
structure VaultState where
  isInit : Bool
  config : VaultConfiguration
  roles : List (String × Role)
  proposals : List Proposal
  nextProposalId : Nat
  payments : List RecurringPayment
  nextPaymentId : Nat
  dailySpent : List (Nat × Int)
  weeklySpent : List (Nat × Int)
deriving DecidableEq, Repr

/-- Ledgers per day (about 5 seconds per ledger, 17280 per day). -/
def ledgersPerDay : Nat := 17280

/-- Ledgers per rolling week. -/
def ledgersPerWeek : Nat := 7 * ledgersPerDay

/-- Expiry window of a proposal, about seven days of ledgers. -/
def expiryWindow : Nat := 7 * ledgersPerDay

/-- Minimum interval of a recurring payment, 720 ledgers (about one hour). -/
def minimumInterval : Nat := 720

/-- The state before initialization: no configuration, no records. -/
def emptyVaultState : VaultState :=
  { isInit := false
    config := { signers := [], threshold := 0, perProposalLimit := 0,
                dailyLimit := 0, weeklyLimit := 0, timelockThreshold := 0,
                timelockDelay := 0 }
    roles := []
    proposals := []
    nextProposalId := 0
    payments := []
    nextPaymentId := 0
    dailySpent := []
    weeklySpent := [] }

/-- Modelled from the spec: getRole of the Role Registry — pure read,
default Member if absent (section 4.1). -/
def getRole (s : VaultState) (address : String) : Role :=
  (s.roles.lookup address).getD Role.Member

/-- Modelled from the spec: isSigner — true iff the address is a member of
the current signer set (section 4.1). -/
def isSigner (s : VaultState) (address : String) : Bool :=
  s.config.signers.contains address

/-- Overwrite of the single role entry of a target identity. -/
def setRoleEntry (roles : List (String × Role)) (target : String) (r : Role) :
    List (String × Role) :=
  (target, r) :: roles.filter (fun p => p.1 ≠ target)

/-- Accumulated outflow recorded for a period key, zero if absent. -/
def lookupSpent (l : List (Nat × Int)) (k : Nat) : Int :=
  (l.lookup k).getD 0

/-- Record additional outflow under a period key. -/
def bumpSpent (l : List (Nat × Int)) (k : Nat) (amount : Int) :
    List (Nat × Int) :=
  (k, lookupSpent l k + amount) :: l.filter (fun p => p.1 ≠ k)

/-- Modelled from the spec: the check half of the Spending Limit Tracker
(section 4.3) — fails when the day or week accumulator would exceed its
limit. -/
def checkLimits (s : VaultState) (amount : Int) (now : Nat) :
    Option EngineError :=
  if lookupSpent s.dailySpent (now / ledgersPerDay) + amount > s.config.dailyLimit
  then some .ExceedsDailyLimit
  else if lookupSpent s.weeklySpent (now / ledgersPerWeek) + amount > s.config.weeklyLimit
  then some .ExceedsWeeklyLimit
  else none

/-- Modelled from the spec: the commit half of the Spending Limit Tracker,
run only after a successful transfer. -/
def commitSpend (s : VaultState) (amount : Int) (now : Nat) : VaultState :=
  { s with
    dailySpent := bumpSpent s.dailySpent (now / ledgersPerDay) amount
    weeklySpent := bumpSpent s.weeklySpent (now / ledgersPerWeek) amount }

/-- Modelled from the spec: computeUnlock of the Timelock Gate
(section 4.4). -/
def computeUnlock (cfg : VaultConfiguration) (amount : Int) (now : Nat) : Nat :=
  if amount ≤ cfg.timelockThreshold then 0 else now + cfg.timelockDelay

/-- Modelled from the spec: isUnlocked of the Timelock Gate (section 4.4). -/
def isUnlocked (unlockLedger now : Nat) : Bool :=
  unlockLedger == 0 || now ≥ unlockLedger

/-- Modelled from the spec: initialize (section 4.2) — callable exactly
once; validates the signer set, the threshold bounds and the limit signs;
assigns the Admin role to the admin and persists the configuration. -/
def initializeVault (admin : String) (cfg : VaultConfiguration) (s : VaultState) :
    Except EngineError VaultState :=
  if s.isInit then .error .AlreadyInitialized
  else if cfg.signers.isEmpty then .error .NoSigners
  else if cfg.threshold < 1 then .error .ThresholdTooLow
  else if cfg.signers.length < cfg.threshold then .error .ThresholdTooHigh
  else if cfg.perProposalLimit < 0 || cfg.dailyLimit < 0 || cfg.weeklyLimit < 0
       || cfg.timelockThreshold < 0 then .error .InvalidAmount
  else .ok { s with
    isInit := true
    config := cfg
    roles := setRoleEntry s.roles admin Role.Admin }

/-- Modelled from the spec: setRole (section 4.1) — Admin-only overwrite of
the role of a target identity. -/
def setRole (caller target : String) (r : Role) (s : VaultState) :
    Except EngineError VaultState :=
  if getRole s caller = Role.Admin then
    .ok { s with roles := setRoleEntry s.roles target r }
  else .error .Unauthorized

/-- Modelled from the spec: addSigner (section 4.2) — Admin-only; adding a
duplicate fails. -/
def addSigner (caller addr : String) (s : VaultState) :
    Except EngineError VaultState :=
  if getRole s caller ≠ Role.Admin then .error .Unauthorized
  else if s.config.signers.contains addr then .error .SignerAlreadyExists
  else .ok { s with config := { s.config with signers := s.config.signers ++ [addr] } }

/-- Modelled from the spec: removeSigner (section 4.2) — Admin-only;
removing an absent signer fails, and removal must not make the threshold
unreachable. -/
def removeSigner (caller addr : String) (s : VaultState) :
    Except EngineError VaultState :=
  if getRole s caller ≠ Role.Admin then .error .Unauthorized
  else if ¬ s.config.signers.contains addr then .error .SignerNotFound
  else if s.config.signers.length - 1 < s.config.threshold then
    .error .CannotRemoveSigner
  else .ok { s with config := { s.config with signers := s.config.signers.erase addr } }

/-- Modelled from the spec: updateThreshold (section 4.2) — Admin-only;
the new threshold must satisfy 1 ≤ n ≤ number of signers. -/
def updateThreshold (caller : String) (n : Nat) (s : VaultState) :
    Except EngineError VaultState :=
  if getRole s caller ≠ Role.Admin then .error .Unauthorized
  else if n < 1 then .error .ThresholdTooLow
  else if s.config.signers.length < n then .error .ThresholdTooHigh
  else .ok { s with config := { s.config with threshold := n } }

/-- Modelled from the spec: updateLimits (section 4.2) — Admin-only; the
amounts must be non-negative. -/
def updateLimits (caller : String) (perProposal daily : Int) (s : VaultState) :
    Except EngineError VaultState :=
  if getRole s caller ≠ Role.Admin then .error .Unauthorized
  else if perProposal < 0 || daily < 0 then .error .InvalidAmount
  else .ok { s with config :=
    { s.config with perProposalLimit := perProposal, dailyLimit := daily } }

/-- Modelled from the spec: proposeTransfer (section 4.5) — requires a
proposer role of Treasurer or Admin, a positive amount within the
per-proposal limit; allocates the next sequential id and appends a Pending
proposal with an empty approval set, the expiry window and the timelock
unlock point. -/
def proposeTransfer (proposer recipient token : String) (amount : Int)
    (memo : String) (now : Nat) (s : VaultState) :
    Except EngineError VaultState :=
  if getRole s proposer = Role.Member then .error .InsufficientRole
  else if amount ≤ 0 then .error .InvalidAmount
  else if amount > s.config.perProposalLimit then .error .ExceedsProposalLimit
  else .ok { s with
    proposals := s.proposals ++
      [{ id := s.nextProposalId
         proposer := proposer
         recipient := recipient
         token := token
         amount := amount
         memo := memo
         approvals := []
         status := ProposalStatus.Pending
         createdAt := now
         expiresAt := now + expiryWindow
         unlockLedger := computeUnlock s.config amount now }]
    nextProposalId := s.nextProposalId + 1 }

/-- Update of the proposal with the given id inside the arena. -/
def updateProposal (proposals : List Proposal) (id : Nat)
    (f : Proposal → Proposal) : List Proposal :=
  proposals.map (fun q => if q.id = id then f q else q)

/-- Effect of one approval on a proposal: the signer is appended to the
approval set, and the status becomes Approved exactly when the new approval
count reaches the threshold. -/
def approveUpdate (threshold : Nat) (signer : String) (q : Proposal) : Proposal :=
  { q with
    approvals := q.approvals ++ [signer]
    status := if threshold ≤ q.approvals.length + 1
              then ProposalStatus.Approved else ProposalStatus.Pending }

/-- Status overwrite on a proposal. -/
def setStatus (st : ProposalStatus) (q : Proposal) : Proposal :=
  { q with status := st }

/-- Modelled from the spec: approveProposal (section 4.5) — the signer must
be a current signer with role at least Treasurer, the proposal Pending, not
expired, and not already approved by this signer; the signer is appended to
the approval set and the status becomes Approved once the threshold is
reached. -/
def approveProposal (signer : String) (id : Nat) (now : Nat) (s : VaultState) :
    Except EngineError VaultState :=
  match s.proposals.find? (fun p => p.id == id) with
  | none => .error .ProposalNotFound
  | some p =>
    if ¬ isSigner s signer then .error .NotASigner
    else if getRole s signer = Role.Member then .error .InsufficientRole
    else if p.status ≠ ProposalStatus.Pending then .error .ProposalNotPending
    else if now > p.expiresAt then .error .ProposalExpired
    else if p.approvals.contains signer then .error .AlreadyApproved
    else .ok { s with
      proposals := updateProposal s.proposals id
        (approveUpdate s.config.threshold signer) }

/-- Modelled from the spec: rejectProposal (section 4.5) — only the original
proposer or an Admin may reject, and only a Pending proposal. -/
def rejectProposal (caller : String) (id : Nat) (s : VaultState) :
    Except EngineError VaultState :=
  match s.proposals.find? (fun p => p.id == id) with
  | none => .error .ProposalNotFound
  | some p =>
    if caller ≠ p.proposer ∧ getRole s caller ≠ Role.Admin then
      .error .Unauthorized
    else if p.status ≠ ProposalStatus.Pending then .error .ProposalNotPending
    else .ok { s with
      proposals := updateProposal s.proposals id
        (setStatus ProposalStatus.Rejected) }

/-- Modelled from the spec: executeProposal (section 4.5) — the proposal
must be Approved (an Executed one reports ProposalAlreadyExecuted), not past
its expiry, past its timelock, within the spending limits, and the external
transfer (abstracted by the transferOk flag) must succeed; on success the
tracker commits the outflow and the proposal becomes Executed. -/
def executeProposal (_executor : String) (id : Nat) (transferOk : Bool)
    (now : Nat) (s : VaultState) : Except EngineError VaultState :=
  match s.proposals.find? (fun p => p.id == id) with
  | none => .error .ProposalNotFound
  | some p =>
    if p.status = ProposalStatus.Executed then .error .ProposalAlreadyExecuted
    else if p.status ≠ ProposalStatus.Approved then .error .ProposalNotApproved
    else if now > p.expiresAt then .error .ProposalExpired
    else if ¬ isUnlocked p.unlockLedger now then .error .TimelockNotExpired
    else
      match checkLimits s p.amount now with
      | some e => .error e
      | none =>
        if ¬ transferOk then .error .TransferFailed
        else .ok { commitSpend s p.amount now with
          proposals := updateProposal s.proposals id
            (setStatus ProposalStatus.Executed) }

/-- Modelled from the spec: schedulePayment (section 4.6) — the proposer
role check mirrors proposeTransfer, the amount must be positive and the
interval at least the fixed minimum. -/
def schedulePayment (proposer recipient token : String) (amount : Int)
    (memo : String) (interval : Nat) (now : Nat) (s : VaultState) :
    Except EngineError VaultState :=
  if getRole s proposer = Role.Member then .error .InsufficientRole
  else if amount ≤ 0 then .error .InvalidAmount
  else if interval < minimumInterval then .error .IntervalTooShort
  else .ok { s with
    payments := s.payments ++
      [{ id := s.nextPaymentId
         proposer := proposer
         recipient := recipient
         token := token
         amount := amount
         memo := memo
         interval := interval
         nextDueAt := now + interval
         executionCount := 0
         active := true }]
    nextPaymentId := s.nextPaymentId + 1 }

/-- Modelled from the spec: executeRecurringPayment (section 4.6) —
callable by any identity; requires an active schedule that is due (the
not-due signal reuses TimelockNotExpired); runs the limit check and the
abstracted transfer; on success the due point advances by the interval and
the execution count increments.  An absent or inactive schedule is treated
as not found (the spec names no dedicated code for it). -/
def executeRecurringPayment (id : Nat) (transferOk : Bool) (now : Nat)
    (s : VaultState) : Except EngineError VaultState :=
  match s.payments.find? (fun p => p.id == id) with
  | none => .error .ProposalNotFound
  | some pm =>
    if ¬ pm.active then .error .ProposalNotFound
    else if now < pm.nextDueAt then .error .TimelockNotExpired
    else
      match checkLimits s pm.amount now with
      | some e => .error e
      | none =>
        if ¬ transferOk then .error .TransferFailed
        else .ok { commitSpend s pm.amount now with
          payments := s.payments.map (fun q =>
            if q.id = id then
              { q with nextDueAt := q.nextDueAt + q.interval
                       executionCount := q.executionCount + 1 }
            else q) }

/-- Modelled from the spec: one invocation of any engine operation, with
its full argument list; now is the ledger sequence counter at admission and
transferOk abstracts the external Transfer Executor outcome. -/
inductive Action where
  | initializeVault (admin : String) (cfg : VaultConfiguration)
  | setRole (caller target : String) (r : Role)
  | addSigner (caller addr : String)
  | removeSigner (caller addr : String)
  | updateThreshold (caller : String) (n : Nat)
  | updateLimits (caller : String) (perProposal daily : Int)
  | proposeTransfer (proposer recipient token : String) (amount : Int)
      (memo : String) (now : Nat)
  | approveProposal (signer : String) (id : Nat) (now : Nat)
  | rejectProposal (caller : String) (id : Nat)
  | executeProposal (executor : String) (id : Nat) (transferOk : Bool) (now : Nat)
  | schedulePayment (proposer recipient token : String) (amount : Int)
      (memo : String) (interval : Nat) (now : Nat)
  | executeRecurringPayment (caller : String) (id : Nat) (transferOk : Bool)
      (now : Nat)
deriving DecidableEq, Repr

/-- Dispatch of an action to its operation. -/
def applyAction (a : Action) (s : VaultState) : Except EngineError VaultState :=
  match a with
  | .initializeVault admin cfg => initializeVault admin cfg s
  | .setRole caller target r => setRole caller target r s
  | .addSigner caller addr => addSigner caller addr s
  | .removeSigner caller addr => removeSigner caller addr s
  | .updateThreshold caller n => updateThreshold caller n s
  | .updateLimits caller p d => updateLimits caller p d s
  | .proposeTransfer proposer recipient token amount memo now =>
      proposeTransfer proposer recipient token amount memo now s
  | .approveProposal signer id now => approveProposal signer id now s
  | .rejectProposal caller id => rejectProposal caller id s
  | .executeProposal executor id transferOk now =>
      executeProposal executor id transferOk now s
  | .schedulePayment proposer recipient token amount memo interval now =>
      schedulePayment proposer recipient token amount memo interval now s
  | .executeRecurringPayment _ id transferOk now =>
      executeRecurringPayment id transferOk now s

/-- Committed result of an invocation: the new state on success, the
unchanged state when the call aborts with an error (the atomic-commit
guarantee of section 5). -/
def stepOk (s : VaultState) (a : Action) : VaultState :=
  match applyAction a s with
  | .ok t => t
  | .error _ => s

/-- Run of a sequence of invocations from a starting state. -/
def runActions (s : VaultState) (as : List Action) : VaultState :=
  as.foldl stepOk s

/-- Claimed invariant: a proposal carries status Approved only when its
approval count has reached the currently configured threshold. -/
def approvedMeetsThreshold (s : VaultState) : Prop :=
  ∀ p ∈ s.proposals, p.status = ProposalStatus.Approved →
    s.config.threshold ≤ p.approvals.length

instance (s : VaultState) : Decidable (approvedMeetsThreshold s) :=
  inferInstanceAs (Decidable (∀ p ∈ s.proposals, _ → _))

/-- Pointwise relation stating that every proposal present before a step is
still present, in place, with its approval list extended only. -/
def proposalsMono (old new : List Proposal) : Prop :=
  List.Forall₂ (fun p q => p.id = q.id ∧ p.approvals <+: q.approvals)
    old (new.take old.length)

/-- Configuration used by the concrete threshold-raise scenario. -/
def cexConfig : VaultConfiguration :=
  { signers := ["GA", "GB", "GC"], threshold := 2,
    perProposalLimit := 1000000, dailyLimit := 1000000,
    weeklyLimit := 1000000, timelockThreshold := 1000000000,
    timelockDelay := 17280 }

/-- Concrete scenario: initialize a 3-signer vault with threshold 2, grant
Treasurer to two signers, create a proposal, collect two approvals (the
proposal becomes Approved), then raise the threshold to 3. -/
def cexActions : List Action :=
  [Action.initializeVault "GA" cexConfig,
   Action.setRole "GA" "GB" Role.Treasurer,
   Action.setRole "GA" "GC" Role.Treasurer,
   Action.proposeTransfer "GA" "GR" "TOK" 100 "memo" 0,
   Action.approveProposal "GB" 0 1,
   Action.approveProposal "GC" 0 2,
   Action.updateThreshold "GA" 3]

/-- State reached by the threshold-raise scenario. -/
def cexState : VaultState := runActions emptyVaultState cexActions

end Engine

example : (Engine.runActions Engine.emptyVaultState
    (Engine.cexActions.take 6)).proposals.map Engine.Proposal.status =
    [ProposalStatus.Approved] := by decide

example : ¬ Engine.approvedMeetsThreshold Engine.cexState := by decide

-- ---------------------------------------------------------------------------
-- Theorems
-- ---------------------------------------------------------------------------

/-- Claim C2, counterexample: at caller GKEEPER and payment id 7 the SDK
binding executeRecurringPayment builds a contract call whose argument list
is exactly the u64 payment id — the caller identity is not among the
contract-call arguments, contrary to the claim. -/
theorem executeRecurringPayment_caller_arg_cex :
    (SDK.executeRecurringPayment "GKEEPER" 7).call.fn = "execute_recurring_payment" ∧
    (SDK.executeRecurringPayment "GKEEPER" 7).call.args = [ScVal.u64 7] ∧
    ScVal.address "GKEEPER" ∉ (SDK.executeRecurringPayment "GKEEPER" 7).call.args := by
  refine ⟨rfl, rfl, ?_⟩
  intro h
  simp [SDK.executeRecurringPayment, u64ToScVal] at h

/-- Claim C2, amended: executeRecurringPayment takes the caller identity
and the payment id, uses the caller as the transaction source account, and
invokes the contract function execute_recurring_payment with the payment id
as the sole contract-call argument. -/
theorem executeRecurringPayment_call_amended (caller : String) (paymentId : Int) :
    SDK.executeRecurringPayment caller paymentId =
      { source := caller
        call := { fn := "execute_recurring_payment"
                  args := [ScVal.u64 paymentId] } } := rfl

/-- Claim C4: every member of the VaultErrorCode enum lies in the hundreds
band of its taxonomy family — initialization in [100,199], authorization in
[200,299], proposal lifecycle in [300,399], spending/limit/time in
[400,499], configuration in [500,599] and token transfer in [600,699]. -/
theorem vaultErrorCode_bands :
    initializationErrors.all (fun p => 100 ≤ p.2 && p.2 ≤ 199) = true ∧
    authorizationErrors.all (fun p => 200 ≤ p.2 && p.2 ≤ 299) = true ∧
    proposalErrors.all (fun p => 300 ≤ p.2 && p.2 ≤ 399) = true ∧
    spendingErrors.all (fun p => 400 ≤ p.2 && p.2 ≤ 499) = true ∧
    configurationErrors.all (fun p => 500 ≤ p.2 && p.2 ≤ 599) = true ∧
    tokenErrors.all (fun p => 600 ≤ p.2 && p.2 ≤ 699) = true := by
  decide

/-- Claim C5: the VaultErrorCode enum has exactly 25 members and no two
members share a numeric value. -/
theorem vaultErrorCode_count_nodup :
    vaultErrorCodes.length = 25 ∧ (vaultErrorCodes.map Prod.snd).Nodup := by
  decide

/-- Claim C6: the contract-binding surface exported by the SDK consists of
exactly one one-time initialization operation, exactly the 11 named mutating
operations and exactly the 4 named read-only operations, all distinct, and
each export is wired to a contract function. -/
theorem sdk_binding_surface :
    SDK.initExports = ["initialize"] ∧
    SDK.mutatingExports =
      ["proposeTransfer", "approveProposal", "executeProposal",
       "rejectProposal", "setRole", "addSigner", "removeSigner",
       "updateLimits", "updateThreshold", "schedulePayment",
       "executeRecurringPayment"] ∧
    SDK.readOnlyExports = ["getProposal", "getRole", "getTodaySpent", "isSigner"] ∧
    SDK.initExports.length = 1 ∧
    SDK.mutatingExports.length = 11 ∧
    SDK.readOnlyExports.length = 4 ∧
    (SDK.initExports ++ SDK.mutatingExports ++ SDK.readOnlyExports).Nodup ∧
    ((SDK.initExports ++ SDK.mutatingExports ++ SDK.readOnlyExports).all
      (fun e => (SDK.exportContractFn e).isSome)) = true := by
  decide

/-- Claim C7: the Role enum is numerically Member = 0, Treasurer = 1,
Admin = 2, pairwise distinct and strictly increasing with privilege, the
encoding is injective, and an identity absent from the role registry
defaults to Member. -/
theorem role_order_default :
    roleValue Role.Member = 0 ∧
    roleValue Role.Treasurer = 1 ∧
    roleValue Role.Admin = 2 ∧
    roleValue Role.Member < roleValue Role.Treasurer ∧
    roleValue Role.Treasurer < roleValue Role.Admin ∧
    (∀ r r2 : Role, roleValue r = roleValue r2 → r = r2) ∧
    (∀ a : String, Engine.getRole Engine.emptyVaultState a = Role.Member) := by
  refine ⟨rfl, rfl, rfl, by decide, by decide, ?_, fun a => rfl⟩
  intro r r2 h
  cases r <;> cases r2 <;> simp_all [roleValue]

/-- Claim C9: for each network preset, buildOptions returns exactly the
record of the unchanged contract id, the default RPC URL of the preset and
the network passphrase of the preset; the mainnet RPC URL is the
REPLACE_ME placeholder. -/
theorem buildOptions_presets (n : PresetNetwork) (cid : String) :
    buildOptions n cid =
      { contractId := cid
        rpcUrl := DEFAULT_RPC_URLS n
        networkPassphrase := NETWORK_PASSPHRASES n } ∧
    (buildOptions PresetNetwork.mainnet cid).rpcUrl =
      "https://mainnet.stellar.validationcloud.io/v1/REPLACE_ME" := ⟨rfl, rfl⟩

/-- Claim C3, counterexample: the message of this error contains the
substring Error(Contract, 100) — with 100 a known VaultErrorCode — yet
parseError returns the original error rather than a VaultError with code
100, because the regex match is the leftmost pattern, here the unknown
code 999. -/
theorem parseError_first_match_cex :
    ("Error(Contract, 100)".data <:+:
      ("Error(Contract, 999) Error(Contract, 100)").data) ∧
    isKnownVaultErrorCode 100 = true ∧
    parseError (JsValue.error "Error(Contract, 999) Error(Contract, 100)") =
      JsValue.error "Error(Contract, 999) Error(Contract, 100)" := by
  refine ⟨⟨"Error(Contract, 999) ".data, [], by decide⟩, by decide, by decide⟩

/-- Claim C3, amended: when the leftmost contract-error pattern of the
message carries a code c known to VaultErrorCode, parseError returns a
VaultError with code c whose default message contains both the numeric code
and the code name; when no known contract-error code is matched, an Error
input is returned unchanged and a non-Error input is wrapped in an Error
carrying its string form — no error is dropped. -/
theorem parseError_amended :
    (∀ (c : Nat) (name m : String),
      vaultErrorCodeName c = some name →
      findContractCode m.data = some c →
      parseError (JsValue.error m) = JsValue.vaultError c (vaultErrorMessage c) ∧
      (toString c).data <:+: (vaultErrorMessage c).data ∧
      name.data <:+: (vaultErrorMessage c).data) ∧
    (∀ m : String,
      (∀ k, findContractCode m.data = some k → isKnownVaultErrorCode k = false) →
      parseError (JsValue.error m) = JsValue.error m) ∧
    (∀ s : String,
      (∀ k, findContractCode s.data = some k → isKnownVaultErrorCode k = false) →
      parseError (JsValue.other s) = JsValue.error s) := by
  refine ⟨?_, ?_, ?_⟩
  · intro c name m hname hfind
    have hknown : isKnownVaultErrorCode c = true := by
      simp [isKnownVaultErrorCode, hname]
    refine ⟨?_, ?_, ?_⟩
    · simp [parseError, hfind, hknown, mkVaultError]
    · exact ⟨"VaultError(".data,
        ("): " ++ ((vaultErrorCodeName c).getD "undefined")).data,
        by simp [vaultErrorMessage]⟩
    · refine ⟨("VaultError(" ++ toString c ++ "): ").data, [], ?_⟩
      simp [vaultErrorMessage, hname]
  · intro m hnk
    cases hfind : findContractCode m.data with
    | none => simp [parseError, hfind]
    | some k => simp [parseError, hfind, hnk k hfind]
  · intro s hnk
    cases hfind : findContractCode s.data with
    | none => simp [parseError, hfind]
    | some k => simp [parseError, hfind, hnk k hfind]

/-- Claim C3, witness: the amended theorem applied at code 100 with message
Error(Contract, 100), and at a message whose only matched code 999 is
unknown. -/
theorem parseError_amended_witness :
    (parseError (JsValue.error "Error(Contract, 100)") =
      JsValue.vaultError 100 (vaultErrorMessage 100) ∧
     (toString 100).data <:+: (vaultErrorMessage 100).data ∧
     "AlreadyInitialized".data <:+: (vaultErrorMessage 100).data) ∧
    parseError (JsValue.error "Error(Contract, 999)") =
      JsValue.error "Error(Contract, 999)" ∧
    parseError (JsValue.other "boom") = JsValue.error "boom" := by
  refine ⟨parseError_amended.1 100 "AlreadyInitialized" _ (by decide) (by decide),
          parseError_amended.2.1 "Error(Contract, 999)" ?_,
          parseError_amended.2.2 "boom" ?_⟩
  · intro k hk
    have h999 : findContractCode ("Error(Contract, 999)").data = some 999 := by
      decide
    rw [h999] at hk
    cases hk
    decide
  · intro k hk
    have hnone : findContractCode ("boom").data = none := by decide
    rw [hnone] at hk
    cases hk

/-- Claim C8: parseError is idempotent — applying it twice equals applying
it once — and an input that is already a VaultError is returned
unchanged. -/
theorem parseError_idempotent :
    (∀ err : JsValue, parseError (parseError err) = parseError err) ∧
    (∀ (c : Nat) (m : String),
      parseError (JsValue.vaultError c m) = JsValue.vaultError c m) := by
  refine ⟨?_, fun c m => rfl⟩
  intro err
  cases err with
  | vaultError c m => rfl
  | error m =>
    cases hfind : findContractCode m.data with
    | none => simp [parseError, hfind]
    | some k =>
      by_cases hk : isKnownVaultErrorCode k = true
      · simp [parseError, hfind, hk, mkVaultError]
      · simp [parseError, hfind, hk]
  | other s =>
    cases hfind : findContractCode s.data with
    | none => simp [parseError, hfind]
    | some k =>
      by_cases hk : isKnownVaultErrorCode k = true
      · simp [parseError, hfind, hk, mkVaultError]
      · simp [parseError, hfind, hk]

theorem undouble_double (cs : List Char) :
    undoubleQuotes (doubleQuotes cs) = cs := by
  induction cs with
  | nil => rfl
  | cons c cs ih =>
    by_cases hc : c = '"'
    · subst hc
      simp [doubleQuotes, undoubleQuotes, ih]
    · rw [doubleQuotes, if_neg hc]
      cases hd : doubleQuotes cs with
      | nil =>
        have hnil : cs = [] := by
          rw [hd] at ih
          simpa [undoubleQuotes] using ih.symm
        subst hnil
        simp [undoubleQuotes]
      | cons d ds =>
        rw [hd] at ih
        simp [undoubleQuotes, hc, ih]

theorem unescape_quoted (s : String) :
    unescapeCsvCell (String.mk ('"' :: (doubleQuotes s.data ++ ['"']))) = s := by
  have hlast : (doubleQuotes s.data ++ ['"']).getLast? = some '"' := by
    simp
  have hdrop : (doubleQuotes s.data ++ ['"']).dropLast = doubleQuotes s.data := by
    simp
  simp [unescapeCsvCell, hlast, hdrop, undouble_double]

theorem unescape_unquoted (s : String) (h : needsCsvQuote s = false) :
    unescapeCsvCell s = s := by
  unfold unescapeCsvCell
  split
  · rename_i rest heq
    exfalso
    have hmem : ('"' : Char) ∈ s.data := by
      rw [heq]
      exact List.mem_cons_self _ _
    have hq : ∀ x ∈ s.data, ((¬ x = '"' ∧ ¬ x = ',') ∧ ¬ x = '\n') ∧ ¬ x = '\r' := by
      simpa [needsCsvQuote] using h
    exact (hq _ hmem).1.1.1 rfl
  · rfl

/-- Claim C10: in the CSV exporters, a cell whose string form holds a
double quote, comma, CR or LF is emitted wrapped in double quotes with each
embedded double quote doubled, every other cell is emitted verbatim,
standard CSV unescaping recovers the original cell string, and both toCsv
and toCSV emit exactly the comma-joined escaped cells of each row joined
with CRLF. -/
theorem csv_cell_roundtrip :
    (∀ v : Option String, unescapeCsvCell (escapeCsvCell v) = v.getD "") ∧
    (∀ v : Option String, needsCsvQuote (v.getD "") = true →
      escapeCsvCell v =
        String.mk ('"' :: (doubleQuotes (v.getD "").data ++ ['"']))) ∧
    (∀ v : Option String, needsCsvQuote (v.getD "") = false →
      escapeCsvCell v = v.getD "") ∧
    (∀ (headers : List String) (rows : List (List (String × String))),
      toCsv headers rows = String.intercalate "\r\n"
        ((String.intercalate "," (headers.map (fun h => escapeCsvCell (some h)))) ::
         rows.map (fun row => String.intercalate ","
           (headers.map (fun h => escapeCsvCell (rowGet row h)))))) ∧
    (∀ (r0 : List (String × String)) (rest : List (List (String × String)))
       (headers : Option (List String)),
      toCSV (r0 :: rest) headers =
        (let keys := headers.getD (r0.map Prod.fst)
         String.intercalate "\r\n"
          ((String.intercalate "," (keys.map (fun h => escapeCsvCell (some h)))) ::
           (r0 :: rest).map (fun row => String.intercalate ","
             (keys.map (fun k => escapeCsvCell (rowGet row k))))))) := by
  refine ⟨?_, ?_, ?_, fun headers rows => rfl, fun r0 rest headers => rfl⟩
  · intro v
    by_cases h : needsCsvQuote (v.getD "")
    · rw [show escapeCsvCell v =
          String.mk ('"' :: (doubleQuotes (v.getD "").data ++ ['"'])) from by
        simp [escapeCsvCell, h]]
      exact unescape_quoted _
    · rw [show escapeCsvCell v = v.getD "" from by simp [escapeCsvCell, h]]
      exact unescape_unquoted _ (by simpa using h)
  · intro v h
    simp [escapeCsvCell, h]
  · intro v h
    simp [escapeCsvCell, h]

/-- Claim C10, witness: the round-trip at the cell containing a quote and a
comma, the wrapped emission at a comma cell, and the verbatim emission at a
plain cell. -/
theorem csv_cell_roundtrip_witness :
    unescapeCsvCell (escapeCsvCell (some "a\"b,c")) = "a\"b,c" ∧
    escapeCsvCell (some "x,y") =
      String.mk ('"' :: (doubleQuotes ("x,y").data ++ ['"'])) ∧
    escapeCsvCell (some "plain") = "plain" := by
  exact ⟨csv_cell_roundtrip.1 (some "a\"b,c"),
         csv_cell_roundtrip.2.1 (some "x,y") (by decide),
         csv_cell_roundtrip.2.2.1 (some "plain") (by decide)⟩

namespace Engine

theorem stepOk_eq_of_ok {a : Action} {s t : VaultState}
    (h : applyAction a s = .ok t) : stepOk s a = t := by
  simp [stepOk, h]

theorem stepOk_eq_of_error {a : Action} {s : VaultState} {e : EngineError}
    (h : applyAction a s = .error e) : stepOk s a = s := by
  simp [stepOk, h]

theorem proposalsMono_refl (l : List Proposal) : proposalsMono l l := by
  unfold proposalsMono
  rw [List.take_length]
  exact List.forall₂_same.mpr (fun p _ => ⟨rfl, ⟨[], List.append_nil _⟩⟩)

theorem proposalsMono_append (l l2 : List Proposal) : proposalsMono l (l ++ l2) := by
  unfold proposalsMono
  rw [List.take_left]
  exact List.forall₂_same.mpr (fun p _ => ⟨rfl, ⟨[], List.append_nil _⟩⟩)

theorem proposalsMono_map (l : List Proposal) (f : Proposal → Proposal)
    (hf : ∀ p, (f p).id = p.id ∧ p.approvals <+: (f p).approvals) :
    proposalsMono l (l.map f) := by
  unfold proposalsMono
  rw [show (l.map f).take l.length = l.map f from by
    rw [← List.length_map l f, List.take_length]]
  exact List.forall₂_map_right_iff.mpr
    (List.forall₂_same.mpr (fun p _ => ⟨(hf p).1.symm, (hf p).2⟩))

theorem updateProposal_mono (l : List Proposal) (id : Nat)
    (f : Proposal → Proposal)
    (hf : ∀ p, (f p).id = p.id ∧ p.approvals <+: (f p).approvals) :
    proposalsMono l (updateProposal l id f) := by
  refine proposalsMono_map l _ (fun p => ?_)
  by_cases hid : p.id = id
  · simp only [hid, eq_self_iff_true, if_true]
    exact ⟨(hf p).1.trans hid, (hf p).2⟩
  · simp only [if_neg hid]
    refine ⟨?_, ⟨[], List.append_nil _⟩⟩
    simp

theorem approveUpdate_mono (threshold : Nat) (signer : String) (p : Proposal) :
    (approveUpdate threshold signer p).id = p.id ∧
    p.approvals <+: (approveUpdate threshold signer p).approvals :=
  ⟨rfl, ⟨[signer], rfl⟩⟩

theorem setStatus_mono (st : ProposalStatus) (p : Proposal) :
    (setStatus st p).id = p.id ∧ p.approvals <+: (setStatus st p).approvals :=
  ⟨rfl, ⟨[], List.append_nil _⟩⟩

theorem initializeVault_ok {admin : String} {cfg : VaultConfiguration}
    {s t : VaultState} (h : initializeVault admin cfg s = .ok t) :
    t.proposals = s.proposals := by
  unfold initializeVault at h
  repeat' split at h
  all_goals first
    | exact Except.noConfusion h
    | (injection h with h; subst h; rfl)

theorem setRole_ok {caller target : String} {r : Role} {s t : VaultState}
    (h : setRole caller target r s = .ok t) :
    t.proposals = s.proposals ∧ t.config = s.config := by
  unfold setRole at h
  repeat' split at h
  all_goals first
    | exact Except.noConfusion h
    | (injection h with h; subst h; exact ⟨rfl, rfl⟩)

theorem addSigner_ok {caller addr : String} {s t : VaultState}
    (h : addSigner caller addr s = .ok t) :
    t.proposals = s.proposals ∧ t.config.threshold = s.config.threshold := by
  unfold addSigner at h
  repeat' split at h
  all_goals first
    | exact Except.noConfusion h
    | (injection h with h; subst h; exact ⟨rfl, rfl⟩)

theorem removeSigner_ok {caller addr : String} {s t : VaultState}
    (h : removeSigner caller addr s = .ok t) :
    t.proposals = s.proposals ∧ t.config.threshold = s.config.threshold := by
  unfold removeSigner at h
  repeat' split at h
  all_goals first
    | exact Except.noConfusion h
    | (injection h with h; subst h; exact ⟨rfl, rfl⟩)

theorem updateThreshold_ok {caller : String} {n : Nat} {s t : VaultState}
    (h : updateThreshold caller n s = .ok t) :
    t.proposals = s.proposals := by
  unfold updateThreshold at h
  repeat' split at h
  all_goals first
    | exact Except.noConfusion h
    | (injection h with h; subst h; rfl)

theorem updateLimits_ok {caller : String} {p d : Int} {s t : VaultState}
    (h : updateLimits caller p d s = .ok t) :
    t.proposals = s.proposals ∧ t.config.threshold = s.config.threshold := by
  unfold updateLimits at h
  repeat' split at h
  all_goals first
    | exact Except.noConfusion h
    | (injection h with h; subst h; exact ⟨rfl, rfl⟩)

theorem proposeTransfer_ok {proposer recipient token : String} {amount : Int}
    {memo : String} {now : Nat} {s t : VaultState}
    (h : proposeTransfer proposer recipient token amount memo now s = .ok t) :
    t.config = s.config ∧
    ∃ p, t.proposals = s.proposals ++ [p] ∧ p.status = ProposalStatus.Pending := by
  unfold proposeTransfer at h
  repeat' split at h
  all_goals first
    | exact Except.noConfusion h
    | (injection h with h; subst h; exact ⟨rfl, _, rfl, rfl⟩)

theorem approveProposal_ok {signer : String} {id now : Nat} {s t : VaultState}
    (h : approveProposal signer id now s = .ok t) :
    t.config = s.config ∧
    t.proposals = updateProposal s.proposals id
      (approveUpdate s.config.threshold signer) := by
  unfold approveProposal at h
  repeat' split at h
  all_goals first
    | exact Except.noConfusion h
    | (injection h with h; subst h; exact ⟨rfl, rfl⟩)

theorem rejectProposal_ok {caller : String} {id : Nat} {s t : VaultState}
    (h : rejectProposal caller id s = .ok t) :
    t.config = s.config ∧
    t.proposals = updateProposal s.proposals id
      (setStatus ProposalStatus.Rejected) := by
  unfold rejectProposal at h
  repeat' split at h
  all_goals first
    | exact Except.noConfusion h
    | (injection h with h; subst h; exact ⟨rfl, rfl⟩)

theorem executeProposal_ok {executor : String} {id : Nat} {transferOk : Bool}
    {now : Nat} {s t : VaultState}
    (h : executeProposal executor id transferOk now s = .ok t) :
    t.config = s.config ∧
    t.proposals = updateProposal s.proposals id
      (setStatus ProposalStatus.Executed) := by
  unfold executeProposal at h
  repeat' split at h
  all_goals first
    | exact Except.noConfusion h
    | (injection h with h; subst h; exact ⟨rfl, rfl⟩)

theorem schedulePayment_ok {proposer recipient token : String} {amount : Int}
    {memo : String} {interval now : Nat} {s t : VaultState}
    (h : schedulePayment proposer recipient token amount memo interval now s = .ok t) :
    t.proposals = s.proposals ∧ t.config = s.config := by
  unfold schedulePayment at h
  repeat' split at h
  all_goals first
    | exact Except.noConfusion h
    | (injection h with h; subst h; exact ⟨rfl, rfl⟩)

theorem executeRecurringPayment_ok {id : Nat} {transferOk : Bool} {now : Nat}
    {s t : VaultState}
    (h : executeRecurringPayment id transferOk now s = .ok t) :
    t.proposals = s.proposals ∧ t.config = s.config := by
  unfold executeRecurringPayment at h
  repeat' split at h
  all_goals first
    | exact Except.noConfusion h
    | (injection h with h; subst h; exact ⟨rfl, rfl⟩)

end Engine

namespace Engine

theorem inv_of_unchanged {s t : VaultState} (hp : t.proposals = s.proposals)
    (hinv : approvedMeetsThreshold s)
    (hth : t.config.threshold ≤ s.config.threshold) :
    approvedMeetsThreshold t := by
  intro p hpmem hstat
  exact le_trans hth (hinv p (hp ▸ hpmem) hstat)

theorem inv_of_append_pending {s t : VaultState} {p0 : Proposal}
    (hp : t.proposals = s.proposals ++ [p0])
    (hp0 : p0.status = ProposalStatus.Pending)
    (hinv : approvedMeetsThreshold s)
    (hth : t.config.threshold ≤ s.config.threshold) :
    approvedMeetsThreshold t := by
  intro p hpmem hstat
  rw [hp] at hpmem
  rcases List.mem_append.mp hpmem with hmem | hmem
  · exact le_trans hth (hinv p hmem hstat)
  · exfalso
    have hpp : p = p0 := by simpa using hmem
    rw [hpp, hp0] at hstat
    exact ProposalStatus.noConfusion hstat

theorem inv_of_approve {s t : VaultState} {id : Nat} {signer : String}
    (hcfg : t.config = s.config)
    (hp : t.proposals =
      updateProposal s.proposals id (approveUpdate s.config.threshold signer))
    (hinv : approvedMeetsThreshold s)
    (hth : t.config.threshold ≤ s.config.threshold) :
    approvedMeetsThreshold t := by
  intro p hpmem hstat
  rw [hp, updateProposal] at hpmem
  obtain ⟨q, hq, hpq⟩ := List.mem_map.mp hpmem
  by_cases hid : q.id = id
  · rw [if_pos hid] at hpq
    rw [← hpq] at hstat
    have hcond : s.config.threshold ≤ q.approvals.length + 1 := by
      by_contra hc
      simp [approveUpdate, hc] at hstat
    have hlen : (approveUpdate s.config.threshold signer q).approvals.length
        = q.approvals.length + 1 := by
      simp [approveUpdate]
    rw [← hpq, hlen, hcfg]
    exact hcond
  · rw [if_neg hid] at hpq
    rw [← hpq] at hstat ⊢
    exact le_trans hth (hinv q hq hstat)

theorem inv_of_setStatus {s t : VaultState} {id : Nat} {st : ProposalStatus}
    (hst : st ≠ ProposalStatus.Approved)
    (hp : t.proposals = updateProposal s.proposals id (setStatus st))
    (hinv : approvedMeetsThreshold s)
    (hth : t.config.threshold ≤ s.config.threshold) :
    approvedMeetsThreshold t := by
  intro p hpmem hstat
  rw [hp, updateProposal] at hpmem
  obtain ⟨q, hq, hpq⟩ := List.mem_map.mp hpmem
  by_cases hid : q.id = id
  · exfalso
    rw [if_pos hid] at hpq
    rw [← hpq] at hstat
    exact hst hstat
  · rw [if_neg hid] at hpq
    rw [← hpq] at hstat ⊢
    exact le_trans hth (hinv q hq hstat)

end Engine

/-- Claim C1, counterexample: in the reachable state of the threshold-raise
scenario (initialize with 3 signers and threshold 2, approve a proposal
twice so it becomes Approved, then raise the threshold to 3 via
updateThreshold), the single proposal is Approved with 2 approvals while
the configured threshold is 3 — the claimed invariant fails. -/
theorem approved_threshold_cex :
    Engine.cexState.config.threshold = 3 ∧
    Engine.cexState.proposals.map Engine.Proposal.status =
      [ProposalStatus.Approved] ∧
    Engine.cexState.proposals.map (fun p => p.approvals.length) = [2] ∧
    ¬ Engine.approvedMeetsThreshold Engine.cexState := by
  refine ⟨by decide, by decide, by decide, by decide⟩

/-- Claim C1, amended: under any single engine operation, the approval set
of every pre-existing proposal is preserved in place and only ever
extended (approvals never shrink); and the invariant that an Approved
proposal has at least threshold-many approvals is preserved by every
operation that does not increase the configured threshold — an operation
raising the threshold (updateThreshold, or an initialize) can leave an
already-Approved proposal below the new threshold, as the counterexample
shows. -/
theorem approved_threshold_invariant (s : Engine.VaultState) (a : Engine.Action) :
    Engine.proposalsMono s.proposals (Engine.stepOk s a).proposals ∧
    (Engine.approvedMeetsThreshold s →
      (Engine.stepOk s a).config.threshold ≤ s.config.threshold →
      Engine.approvedMeetsThreshold (Engine.stepOk s a)) := by
  cases a with
  | initializeVault admin cfg =>
    cases hstep : Engine.applyAction (Engine.Action.initializeVault admin cfg) s with
    | error e =>
      rw [Engine.stepOk_eq_of_error hstep]
      exact ⟨Engine.proposalsMono_refl _, fun hinv _ => hinv⟩
    | ok t =>
      rw [Engine.stepOk_eq_of_ok hstep]
      simp only [Engine.applyAction] at hstep
      have hp := Engine.initializeVault_ok hstep
      exact ⟨by rw [hp]; exact Engine.proposalsMono_refl _,
             fun hinv hth => Engine.inv_of_unchanged hp hinv hth⟩
  | setRole caller target r =>
    cases hstep : Engine.applyAction (Engine.Action.setRole caller target r) s with
    | error e =>
      rw [Engine.stepOk_eq_of_error hstep]
      exact ⟨Engine.proposalsMono_refl _, fun hinv _ => hinv⟩
    | ok t =>
      rw [Engine.stepOk_eq_of_ok hstep]
      simp only [Engine.applyAction] at hstep
      have hp := Engine.setRole_ok hstep
      exact ⟨by rw [hp.1]; exact Engine.proposalsMono_refl _,
             fun hinv hth => Engine.inv_of_unchanged hp.1 hinv hth⟩
  | addSigner caller addr =>
    cases hstep : Engine.applyAction (Engine.Action.addSigner caller addr) s with
    | error e =>
      rw [Engine.stepOk_eq_of_error hstep]
      exact ⟨Engine.proposalsMono_refl _, fun hinv _ => hinv⟩
    | ok t =>
      rw [Engine.stepOk_eq_of_ok hstep]
      simp only [Engine.applyAction] at hstep
      have hp := Engine.addSigner_ok hstep
      exact ⟨by rw [hp.1]; exact Engine.proposalsMono_refl _,
             fun hinv hth => Engine.inv_of_unchanged hp.1 hinv hth⟩
  | removeSigner caller addr =>
    cases hstep : Engine.applyAction (Engine.Action.removeSigner caller addr) s with
    | error e =>
      rw [Engine.stepOk_eq_of_error hstep]
      exact ⟨Engine.proposalsMono_refl _, fun hinv _ => hinv⟩
    | ok t =>
      rw [Engine.stepOk_eq_of_ok hstep]
      simp only [Engine.applyAction] at hstep
      have hp := Engine.removeSigner_ok hstep
      exact ⟨by rw [hp.1]; exact Engine.proposalsMono_refl _,
             fun hinv hth => Engine.inv_of_unchanged hp.1 hinv hth⟩
  | updateThreshold caller n =>
    cases hstep : Engine.applyAction (Engine.Action.updateThreshold caller n) s with
    | error e =>
      rw [Engine.stepOk_eq_of_error hstep]
      exact ⟨Engine.proposalsMono_refl _, fun hinv _ => hinv⟩
    | ok t =>
      rw [Engine.stepOk_eq_of_ok hstep]
      simp only [Engine.applyAction] at hstep
      have hp := Engine.updateThreshold_ok hstep
      exact ⟨by rw [hp]; exact Engine.proposalsMono_refl _,
             fun hinv hth => Engine.inv_of_unchanged hp hinv hth⟩
  | updateLimits caller p d =>
    cases hstep : Engine.applyAction (Engine.Action.updateLimits caller p d) s with
    | error e =>
      rw [Engine.stepOk_eq_of_error hstep]
      exact ⟨Engine.proposalsMono_refl _, fun hinv _ => hinv⟩
    | ok t =>
      rw [Engine.stepOk_eq_of_ok hstep]
      simp only [Engine.applyAction] at hstep
      have hp := Engine.updateLimits_ok hstep
      exact ⟨by rw [hp.1]; exact Engine.proposalsMono_refl _,
             fun hinv hth => Engine.inv_of_unchanged hp.1 hinv hth⟩
  | proposeTransfer proposer recipient token amount memo now =>
    cases hstep : Engine.applyAction
        (Engine.Action.proposeTransfer proposer recipient token amount memo now) s with
    | error e =>
      rw [Engine.stepOk_eq_of_error hstep]
      exact ⟨Engine.proposalsMono_refl _, fun hinv _ => hinv⟩
    | ok t =>
      rw [Engine.stepOk_eq_of_ok hstep]
      simp only [Engine.applyAction] at hstep
      obtain ⟨hcfg, p0, hp, hpend⟩ := Engine.proposeTransfer_ok hstep
      exact ⟨by rw [hp]; exact Engine.proposalsMono_append _ _,
             fun hinv hth => Engine.inv_of_append_pending hp hpend hinv hth⟩
  | approveProposal signer id now =>
    cases hstep : Engine.applyAction (Engine.Action.approveProposal signer id now) s with
    | error e =>
      rw [Engine.stepOk_eq_of_error hstep]
      exact ⟨Engine.proposalsMono_refl _, fun hinv _ => hinv⟩
    | ok t =>
      rw [Engine.stepOk_eq_of_ok hstep]
      simp only [Engine.applyAction] at hstep
      obtain ⟨hcfg, hp⟩ := Engine.approveProposal_ok hstep
      refine ⟨?_, fun hinv hth => Engine.inv_of_approve hcfg hp hinv hth⟩
      rw [hp]
      exact Engine.updateProposal_mono _ _ _ (Engine.approveUpdate_mono _ signer)
  | rejectProposal caller id =>
    cases hstep : Engine.applyAction (Engine.Action.rejectProposal caller id) s with
    | error e =>
      rw [Engine.stepOk_eq_of_error hstep]
      exact ⟨Engine.proposalsMono_refl _, fun hinv _ => hinv⟩
    | ok t =>
      rw [Engine.stepOk_eq_of_ok hstep]
      simp only [Engine.applyAction] at hstep
      obtain ⟨hcfg, hp⟩ := Engine.rejectProposal_ok hstep
      refine ⟨?_, fun hinv hth => Engine.inv_of_setStatus (by decide) hp hinv hth⟩
      rw [hp]
      exact Engine.updateProposal_mono _ _ _ (Engine.setStatus_mono _)
  | executeProposal executor id transferOk now =>
    cases hstep : Engine.applyAction
        (Engine.Action.executeProposal executor id transferOk now) s with
    | error e =>
      rw [Engine.stepOk_eq_of_error hstep]
      exact ⟨Engine.proposalsMono_refl _, fun hinv _ => hinv⟩
    | ok t =>
      rw [Engine.stepOk_eq_of_ok hstep]
      simp only [Engine.applyAction] at hstep
      obtain ⟨hcfg, hp⟩ := Engine.executeProposal_ok hstep
      refine ⟨?_, fun hinv hth => Engine.inv_of_setStatus (by decide) hp hinv hth⟩
      rw [hp]
      exact Engine.updateProposal_mono _ _ _ (Engine.setStatus_mono _)
  | schedulePayment proposer recipient token amount memo interval now =>
    cases hstep : Engine.applyAction
        (Engine.Action.schedulePayment proposer recipient token amount memo interval now) s with
    | error e =>
      rw [Engine.stepOk_eq_of_error hstep]
      exact ⟨Engine.proposalsMono_refl _, fun hinv _ => hinv⟩
    | ok t =>
      rw [Engine.stepOk_eq_of_ok hstep]
      simp only [Engine.applyAction] at hstep
      have hp := Engine.schedulePayment_ok hstep
      exact ⟨by rw [hp.1]; exact Engine.proposalsMono_refl _,
             fun hinv hth => Engine.inv_of_unchanged hp.1 hinv hth⟩
  | executeRecurringPayment caller id transferOk now =>
    cases hstep : Engine.applyAction
        (Engine.Action.executeRecurringPayment caller id transferOk now) s with
    | error e =>
      rw [Engine.stepOk_eq_of_error hstep]
      exact ⟨Engine.proposalsMono_refl _, fun hinv _ => hinv⟩
    | ok t =>
      rw [Engine.stepOk_eq_of_ok hstep]
      simp only [Engine.applyAction] at hstep
      have hp := Engine.executeRecurringPayment_ok hstep
      exact ⟨by rw [hp.1]; exact Engine.proposalsMono_refl _,
             fun hinv hth => Engine.inv_of_unchanged hp.1 hinv hth⟩

/-- Claim C1, witness: the amended theorem applied at the state of the
scenario just before the second approval and at that approval action; the
hypotheses (the invariant holds and the step does not raise the threshold)
are discharged by evaluation. -/
theorem approved_threshold_invariant_witness :
    Engine.approvedMeetsThreshold
      (Engine.stepOk (Engine.runActions Engine.emptyVaultState (Engine.cexActions.take 5))
        (Engine.Action.approveProposal "GC" 0 2)) :=
  (approved_threshold_invariant
      (Engine.runActions Engine.emptyVaultState (Engine.cexActions.take 5))
      (Engine.Action.approveProposal "GC" 0 2)).2
    (by decide) (by decide)

/-- Claim C7, witness: the injectivity clause of the role-order theorem
applied at Treasurer, and the default-role clause applied at a concrete
address. -/
theorem role_order_default_witness :
    Role.Treasurer = Role.Treasurer ∧
    Engine.getRole Engine.emptyVaultState "GNOBODY" = Role.Member :=
  ⟨role_order_default.2.2.2.2.2.1 Role.Treasurer Role.Treasurer rfl,
   role_order_default.2.2.2.2.2.2 "GNOBODY"⟩
